import Mathlib

/-!
# Mapty: workout records, validation, the workout store and its rendered list

A shallow embedding of `script.js`.

* Numbers are `JSNum`: the finite values are exact rationals, so rounding to
  binary64 and the sign of zero are left out of the model.
* Objects live in a heap (`App.heap`) and are named by their index, so that the
  record bound into the edit handler and the record held by `#workouts` are one
  object, as in the source.
* A handler that throws keeps the mutations it made before the throw
  (`Outcome.threw`).
* The `.value` of the form inputs is what the user typed before the submission:
  it is handed to the submit handlers as `FormValues`.  The map view, the popup
  texts, the focus and the display timer of `_hideForm` are not part of the state.
-/

namespace Mapty

/-! ## Numbers -/

/-- A JavaScript number; finite values are exact rationals. -/
inductive JSNum where
  | nan
  | posInf
  | negInf
  | fin (q : ℚ)
  deriving DecidableEq

namespace JSNum

/-- `Number.isFinite(x)`. -/
def isFinite : JSNum → Bool
  | fin _ => true
  | _ => false

/-- `x > 0`. -/
def gtZero : JSNum → Bool
  | fin q => decide (0 < q)
  | posInf => true
  | _ => false

/-- Unary minus. -/
def neg : JSNum → JSNum
  | nan => nan
  | posInf => negInf
  | negInf => posInf
  | fin q => fin (-q)

/-- `x / y`. The quotient of finite numbers is the exact rational: that the
binary64 quotient overflows to an infinity or underflows to 0 is not modelled,
and a statement that needs a finite quotient assumes it of the value stored. -/
def div : JSNum → JSNum → JSNum
  | fin a, fin b =>
    if b = 0 then (if a = 0 then nan else if 0 < a then posInf else negInf)
    else fin (a / b)
  | fin _, posInf => fin 0
  | fin _, negInf => fin 0
  | posInf, fin b => if 0 ≤ b then posInf else negInf
  | negInf, fin b => if 0 ≤ b then negInf else posInf
  | _, _ => nan

/-- `x - y`. -/
def sub : JSNum → JSNum → JSNum
  | fin a, fin b => fin (a - b)
  | fin _, posInf => negInf
  | fin _, negInf => posInf
  | posInf, fin _ => posInf
  | posInf, negInf => posInf
  | negInf, fin _ => negInf
  | negInf, posInf => negInf
  | _, _ => nan

end JSNum

/-- A value read from a numeric field of a record: `undefined` (also an absent
member), `null` (what JSON gives back for a non-finite number) or a number. -/
inductive Val where
  | undefined
  | null
  | num (x : JSNum)
  deriving DecidableEq

/-- `ToNumber` on such a value. -/
def Val.toNumber : Val → JSNum
  | .undefined => .nan
  | .null => .fin 0
  | .num x => x

/-! ## The unary plus on a string (`StringToNumber`) -/

/-- Code points of `StrWhiteSpaceChar`. -/
def strWhiteSpace : List Nat :=
  [9, 10, 11, 12, 13, 32, 160, 5760, 8192, 8193, 8194, 8195, 8196, 8197, 8198, 8199,
   8200, 8201, 8202, 8232, 8233, 8239, 8287, 12288, 65279]

def isStrWhiteSpace (c : Char) : Bool := strWhiteSpace.contains c.toNat

def trimChars (cs : List Char) : List Char :=
  ((cs.dropWhile isStrWhiteSpace).reverse.dropWhile isStrWhiteSpace).reverse

/-- Value of a digit in a base up to 16. -/
def digitValue (c : Char) : Option Nat :=
  if c.isDigit then some (c.toNat - 48)
  else if 97 ≤ c.toNat ∧ c.toNat ≤ 102 then some (c.toNat - 87)
  else if 65 ≤ c.toNat ∧ c.toNat ≤ 70 then some (c.toNat - 55)
  else none

/-- Digits of a literal in the given base, most significant first. -/
def natOfDigits (base : Nat) : List Char → Nat → Option Nat
  | [], acc => some acc
  | c :: cs, acc =>
    match digitValue c with
    | some d => if d < base then natOfDigits base cs (base * acc + d) else none
    | none => none

/-- A non-empty run of digits in the given base. -/
def parseDigits (base : Nat) (cs : List Char) : Option Nat :=
  if cs = [] then none else natOfDigits base cs 0

/-- `m × 10^e`. -/
def scale10 (m : Nat) (e : Int) : ℚ :=
  if 0 ≤ e then (m : ℚ) * ((10 ^ e.toNat : Nat) : ℚ) else (m : ℚ) / ((10 ^ (-e).toNat : Nat) : ℚ)

/-- An optional `ExponentPart` followed by the end of the literal. -/
def parseExponent : List Char → Option Int
  | [] => some 0
  | c :: rest =>
    if c = 'e' ∨ c = 'E' then
      match rest with
      | '+' :: ds => (parseDigits 10 ds).map Int.ofNat
      | '-' :: ds => (parseDigits 10 ds).map fun n => - Int.ofNat n
      | ds => (parseDigits 10 ds).map Int.ofNat
    else none

/-- `StrUnsignedDecimalLiteral`. -/
def parseUnsignedDecimal (cs : List Char) : Option JSNum :=
  if cs = "Infinity".data then some .posInf
  else
    let intPart := cs.takeWhile Char.isDigit
    let rest := cs.dropWhile Char.isDigit
    let fracPart := match rest with
      | '.' :: r => r.takeWhile Char.isDigit
      | _ => []
    let tail := match rest with
      | '.' :: r => r.dropWhile Char.isDigit
      | r => r
    if intPart = [] ∧ fracPart = [] then none
    else
      match natOfDigits 10 (intPart ++ fracPart) 0, parseExponent tail with
      | some m, some e => some (.fin (scale10 m (e - fracPart.length)))
      | _, _ => none

/-- `StrNumericLiteral`. -/
def parseNumeric : List Char → Option JSNum
  | '+' :: cs => parseUnsignedDecimal cs
  | '-' :: cs => (parseUnsignedDecimal cs).map JSNum.neg
  | '0' :: x :: cs =>
    if x = 'x' ∨ x = 'X' then (parseDigits 16 cs).map fun n => .fin n
    else if x = 'o' ∨ x = 'O' then (parseDigits 8 cs).map fun n => .fin n
    else if x = 'b' ∨ x = 'B' then (parseDigits 2 cs).map fun n => .fin n
    else parseUnsignedDecimal ('0' :: x :: cs)
  | cs => parseUnsignedDecimal cs

/-- The number `+s` of a string `s`: 0 for an empty or blank string, `NaN` for
text that is no numeric literal. -/
def StringToNumber (s : String) : JSNum :=
  match trimChars s.data with
  | [] => .fin 0
  | cs => (parseNumeric cs).getD .nan

/-! ## Workout records -/

/-- Modelled from the spec: the options of the activity type select
(`inputType.value`), whose markup is not part of the sources:
"activity type (enum: running|cycling)". -/
inductive ActivityType where
  | running
  | cycling
  deriving DecidableEq

/-- The string of the option. -/
def ActivityType.value : ActivityType → String
  | .running => "running"
  | .cycling => "cycling"

/-- The prototype of an object: `Object.prototype` for what `JSON.parse`
returns, `Running.prototype` or `Cycling.prototype` for a class instance. -/
inductive Proto where
  | object
  | running
  | cycling
  deriving DecidableEq

/-- A reading of the clock: the instant, and the month (from 0) and day of
the month that a `Date` of that instant reports. -/
structure Clock where
  ms : Nat
  month : Nat
  day : Nat
  deriving DecidableEq

/-- The `date` member: a `Date` object, or the ISO string that JSON writes
for it. -/
inductive DateVal where
  | date (c : Clock)
  | isoString (ms : Nat)
  deriving DecidableEq

/-- A workout object. A numeric member that the object does not carry reads
`Val.undefined`. -/
structure Workout where
  proto : Proto
  date : DateVal
  id : String
  distance : Val
  duration : Val
  coords : Option (ℚ × ℚ)
  type : ActivityType
  cadence : Val
  pace : Val
  elevationGain : Val
  speed : Val
  description : String
  deriving DecidableEq

def months : List String :=
  ["January", "February", "March", "April", "May", "June", "July", "August",
   "September", "October", "November", "December"]

/-- `s[0].toUpperCase() + s.slice(1)`. -/
def upperFirst (s : String) : String :=
  match s.data with
  | [] => ""
  | c :: cs => String.mk (c.toUpper :: cs)

/-- `Workout._createDescription`. A date string has no `getMonth`; the
constructors, the only callers, hold a `Date`. -/
def _createDescription (w : Workout) : Workout :=
  match w.date with
  | .date c =>
    { w with
      description :=
        upperFirst w.type.value ++ " on " ++ months.getD c.month "undefined" ++ " "
          ++ toString c.day }
  | .isoString _ => w

/-- `Running.calcPace`: min/km. -/
def calcPace (w : Workout) : Workout :=
  { w with pace := .num (JSNum.div w.duration.toNumber w.distance.toNumber) }

/-- `Cycling.calcSpeed`: km/h. -/
def calcSpeed (w : Workout) : Workout :=
  { w with
    speed := .num (JSNum.div w.distance.toNumber (JSNum.div w.duration.toNumber (.fin 60))) }

/-- `new Running(distance, duration, coords, cadence)` at clock reading `c`. -/
def Running.new (c : Clock) (distance duration : Val) (coords : Option (ℚ × ℚ))
    (cadence : Val) : Workout :=
  _createDescription (calcPace
    { proto := .running, date := .date c, id := toString c.ms,
      distance := distance, duration := duration, coords := coords,
      type := .running, cadence := cadence, pace := .undefined,
      elevationGain := .undefined, speed := .undefined, description := "" })

/-- `new Cycling(distance, duration, coords, elevationGain)` at clock reading `c`. -/
def Cycling.new (c : Clock) (distance duration : Val) (coords : Option (ℚ × ℚ))
    (elevationGain : Val) : Workout :=
  _createDescription (calcSpeed
    { proto := .cycling, date := .date c, id := toString c.ms,
      distance := distance, duration := duration, coords := coords,
      type := .cycling, cadence := .undefined, pace := .undefined,
      elevationGain := elevationGain, speed := .undefined, description := "" })

/-- `text.replace(pattern, replacement)` with a string pattern: the first
occurrence is replaced. -/
def replaceChars (pattern replacement : List Char) : List Char → List Char
  | [] => if pattern = [] then replacement else []
  | c :: cs =>
    if pattern.isPrefixOf (c :: cs) then replacement ++ (c :: cs).drop pattern.length
    else c :: replaceChars pattern replacement cs

def replace (text pattern replacement : String) : String :=
  String.mk (replaceChars pattern.data replacement.data text.data)

/-! ## JSON -/

/-- What a numeric member reads after `JSON.parse(JSON.stringify(...))`: a
non-finite number is written as `null`, an undefined member is left out. -/
def jsonVal : Val → Val
  | .num (.fin q) => .num (.fin q)
  | .num _ => .null
  | .null => .null
  | .undefined => .undefined

/-- The instant of a `date` member. -/
def DateVal.ms : DateVal → Nat
  | .date c => c.ms
  | .isoString ms => ms

/-- The object `JSON.parse` returns for the text `JSON.stringify` writes for
a record: a plain object, whose `date` is the ISO string. -/
def jsonObject (w : Workout) : Workout :=
  { w with
    proto := .object
    date := .isoString w.date.ms
    distance := jsonVal w.distance
    duration := jsonVal w.duration
    cadence := jsonVal w.cadence
    pace := jsonVal w.pace
    elevationGain := jsonVal w.elevationGain
    speed := jsonVal w.speed }

/-- The members `Object.assign(target, source)` leaves in `target`, for a
`source` that `JSON.parse` returned: the members the source carries replace
those of the target. -/
def assignVal (target source : Val) : Val :=
  if source = .undefined then target else source

def Object.assign (target source : Workout) : Workout :=
  { proto := target.proto
    date := source.date
    id := source.id
    distance := assignVal target.distance source.distance
    duration := assignVal target.duration source.duration
    coords := match source.coords with
      | some c => some c
      | none => target.coords
    type := source.type
    cadence := assignVal target.cadence source.cadence
    pace := assignVal target.pace source.pace
    elevationGain := assignVal target.elevationGain source.elevationGain
    speed := assignVal target.speed source.speed
    description := source.description }

/-- The text `JSON.stringify` writes for the record list, held as the list of
the objects it describes. -/
def JSON.stringify (records : List Workout) : List Workout :=
  records.map jsonObject

/-- The fresh plain objects `JSON.parse` returns for such a text. -/
def JSON.parse (text : List Workout) : List Workout :=
  text.map jsonObject

/-! ## The application state -/

/-- An element of `containerWorkouts.children`: the form, or the list item
rendered for a record, with its `data-id` and whether it has the class
`hidden`. -/
inductive Child where
  | form
  | item (id : String) (hidden : Bool)
  deriving DecidableEq

/-- A map marker: `options.id`, and whether it is on the map. -/
structure Marker where
  id : String
  onMap : Bool
  deriving DecidableEq

inductive FormMode where
  | add
  | edit
  deriving DecidableEq

/-- A submit listener of the form: `createWorkoutLinked`, or an
`editWorkoutLinked` with the workout object bound into it. -/
inductive Listener where
  | createWorkoutLinked
  | editWorkoutLinked (workout : Nat)
  deriving DecidableEq

/-- The state of `App` with the part of the page it works on. -/
structure App where
  /-- the objects, by reference -/
  heap : List Workout
  /-- `#workouts`, as references -/
  workouts : List Nat
  /-- `#markers` -/
  markers : List Marker
  /-- whether `#map` is set -/
  map : Bool
  /-- `#mapEvent.latlng` -/
  mapEvent : Option (ℚ × ℚ)
  /-- `#formMode` -/
  formMode : FormMode
  /-- the workout bound into `editWorkoutLinked` -/
  editWorkoutLinked : Option Nat
  /-- the submit listeners of the form, in the order they were added -/
  submitListeners : List Listener
  /-- `containerWorkouts.children` -/
  children : List Child
  /-- the form has the class `hidden` -/
  formHidden : Bool
  /-- the form has the class `error` -/
  formError : Bool
  /-- the error message has the class `hidden` -/
  errMessageHidden : Bool
  /-- the item `workouts` of `localStorage` -/
  localStorage : Option (List Workout)
  deriving DecidableEq

/-- What the user typed into the form. -/
structure FormValues where
  type : ActivityType
  distance : String
  duration : String
  cadence : String
  elevation : String
  deriving DecidableEq

/-- How a call ends: it returns a value, or it throws; both with the state
reached. -/
inductive Outcome (α : Type) where
  | ret (a : α) (s : App)
  | threw (s : App)

def Outcome.state {α : Type} : Outcome α → App
  | .ret _ s => s
  | .threw s => s

/-- The next statement runs when the previous one did not throw. -/
def Outcome.andThen {β : Type} (o : Outcome Unit) (f : App → Outcome β) : Outcome β :=
  match o with
  | .ret _ s => f s
  | .threw s => .threw s

def modifyAt {α : Type} (f : α → α) : Nat → List α → List α
  | _, [] => []
  | 0, x :: xs => f x :: xs
  | n + 1, x :: xs => x :: modifyAt f n xs

/-- The object behind a reference. -/
def App.object (s : App) (r : Nat) : Option Workout := s.heap[r]?

/-- A new object; its reference is returned. -/
def App.alloc (s : App) (w : Workout) : App × Nat :=
  ({ s with heap := s.heap ++ [w] }, s.heap.length)

/-- Assignments to members of the object behind `r`. -/
def App.mutate (s : App) (r : Nat) (f : Workout → Workout) : App :=
  { s with heap := modifyAt f r s.heap }

/-- The records of the Workout Store, in order. -/
def App.records (s : App) : List Workout := s.workouts.filterMap s.object

/-! ### The list in the page -/

/-- `containerWorkouts.prepend(form)`. -/
def prependForm (cs : List Child) : List Child :=
  .form :: cs.filter (· ≠ .form)

/-- `form.insertAdjacentHTML('afterend', html)`: the new item becomes the
sibling right after the form. -/
def insertAfterForm (x : Child) : List Child → List Child
  | [] => []
  | .form :: cs => .form :: x :: cs
  | c :: cs => c :: insertAfterForm x cs

/-- `classList.add('hidden')` on a child. -/
def Child.hide : Child → Child
  | .form => .form
  | .item id _ => .item id true

/-- `classList.remove('hidden')` on a child. -/
def Child.show : Child → Child
  | .form => .form
  | .item id _ => .item id false

/-- `containerWorkouts.insertBefore(form, workoutItem)` for the item at
position `i`. -/
def insertFormBefore (i : Nat) (cs : List Child) : List Child :=
  (cs.take i).filter (· ≠ .form) ++ .form :: (cs.drop i).filter (· ≠ .form)

/-- The ids of the rendered list items, from the top. -/
def itemIds : List Child → List String
  | [] => []
  | .form :: cs => itemIds cs
  | .item id _ :: cs => id :: itemIds cs

/-! ### The methods of `App` -/

def _showForm (s : App) (latlng : ℚ × ℚ) : App :=
  { s with mapEvent := some latlng, formHidden := false }

def _hideForm (s : App) : App :=
  { s with formHidden := true, children := prependForm s.children }

def _showErrMessage (s : App) : App :=
  { s with errMessageHidden := false, formError := true }

def _hideErrMessage (s : App) : App :=
  { s with errMessageHidden := true, formError := false }

def isNumber (inputs : List JSNum) : Bool := inputs.all JSNum.isFinite

def isPositiveNumber (inputs : List JSNum) : Bool := inputs.all JSNum.gtZero

/-- `_processWorkoutValues(lat, lng, obj)`: it returns the new record in add
mode and nothing otherwise. -/
def _processWorkoutValues (s : App) (c : Clock) (v : FormValues) (latlng : Option (ℚ × ℚ))
    (obj : Option Nat) : Outcome (Option Nat) :=
  let type := v.type
  let distance := StringToNumber v.distance
  let duration := StringToNumber v.duration
  match type with
  | .running =>
    let cadence := StringToNumber v.cadence
    if !isNumber [distance, duration, cadence] || !isPositiveNumber [distance, duration, cadence]
    then .ret none (_showErrMessage s)
    else
      match s.formMode with
      | .add =>
        let made := s.alloc (Running.new c (.num distance) (.num duration) latlng (.num cadence))
        .ret (some made.2) made.1
      | .edit =>
        match obj with
        | none => .threw s
        | some r =>
          .ret none (s.mutate r fun o =>
            { o with type := type, distance := .num distance, duration := .num duration,
                     cadence := .num cadence })
  | .cycling =>
    let elevation := StringToNumber v.elevation
    if !isNumber [distance, duration, elevation] || !isPositiveNumber [distance, duration]
    then .ret none (_showErrMessage s)
    else
      match s.formMode with
      | .add =>
        let made := s.alloc (Cycling.new c (.num distance) (.num duration) latlng (.num elevation))
        .ret (some made.2) made.1
      | .edit =>
        match obj with
        | none => .threw s
        | some r =>
          .ret none (s.mutate r fun o =>
            { o with type := type, distance := .num distance, duration := .num duration,
                     elevationGain := .num elevation })

/-- `marker` of `#markers.find(marker => marker.options.id === id)`. -/
def findMarker (s : App) (id : String) : Option Marker :=
  s.markers.find? fun m => m.id = id

/-- `_updateWorkoutMarker`: it throws when no marker has the id. -/
def _updateWorkoutMarker (s : App) (workout : Workout) : Outcome Unit :=
  match findMarker s workout.id with
  | none => .threw s
  | some _ => .ret () s

/-- `_renderWorkoutMarker`: `addTo` throws while there is no map. -/
def _renderWorkoutMarker (s : App) (workout : Workout) : Outcome Unit :=
  if s.map then .ret () { s with markers := s.markers ++ [{ id := workout.id, onMap := true }] }
  else .threw s

/-- Whether `x.toFixed(1)` can be called: not on `undefined` or `null`. -/
def hasToFixed : Val → Bool
  | .num _ => true
  | _ => false

/-- Whether the markup of `_renderWorkoutItem` can be built: it calls
`workout.pace.toFixed(1)` for a running and `workout.speed.toFixed(1)` for a
cycling record. -/
def canRender (workout : Workout) : Bool :=
  match workout.type with
  | .running => hasToFixed workout.pace
  | .cycling => hasToFixed workout.speed

/-- `_renderWorkoutItem`: the item is inserted right after the form. -/
def _renderWorkoutItem (s : App) (workout : Workout) : Outcome Unit :=
  if canRender workout then
    .ret () { s with children := insertAfterForm (.item workout.id false) s.children }
  else .threw s

def _setLocalStorage (s : App) : App :=
  { s with localStorage := some (JSON.stringify s.records) }

def isHiddenWorkout : Child → Bool
  | .item _ hidden => hidden
  | .form => false

/-- `_removeHiddenWorkout`: `find` gives `undefined` when no item is hidden,
and `.remove()` throws on it. -/
def _removeHiddenWorkout (s : App) : Outcome Unit :=
  if s.children.any isHiddenWorkout then
    .ret () { s with children := s.children.eraseP isHiddenWorkout }
  else .threw s

def addEventListener (l : Listener) (ls : List Listener) : List Listener :=
  if l ∈ ls then ls else ls ++ [l]

def removeEventListener (l : Option Listener) (ls : List Listener) : List Listener :=
  match l with
  | some l => ls.erase l
  | none => ls

/-- The current `this.editWorkoutLinked`. -/
def App.editListener (s : App) : Option Listener :=
  s.editWorkoutLinked.map Listener.editWorkoutLinked

/-- `_createWorkout`. -/
def _createWorkout (s : App) (c : Clock) (v : FormValues) : Outcome Unit :=
  match s.mapEvent with
  | none => .threw s
  | some latlng =>
    match _processWorkoutValues s c v (some latlng) none with
    | .threw s1 => .threw s1
    | .ret workout s1 =>
      if s1.formError then .ret () s1
      else
        match workout with
        | none => .threw s1
        | some r =>
          let s2 := { s1 with workouts := s1.workouts ++ [r] }
          match s2.object r with
          | none => .threw s2
          | some w =>
            (_renderWorkoutMarker s2 w).andThen fun s3 =>
            (_renderWorkoutItem s3 w).andThen fun s4 =>
            .ret () (_setLocalStorage (_hideForm s4))

/-- The statements of `_editWorkout` before the values are processed: the
type is assigned from the form, and by the type the prototype is set, the
activity word of the description is replaced and the metric is computed. -/
def retype (type : ActivityType) (workout : Workout) : Workout :=
  match type with
  | .running =>
    calcPace { workout with
      type := type, proto := .running
      description := replace workout.description "Cycling" "Running" }
  | .cycling =>
    calcSpeed { workout with
      type := type, proto := .cycling
      description := replace workout.description "Running" "Cycling" }

/-- `_editWorkout`, with the workout object bound into it. -/
def _editWorkout (s : App) (c : Clock) (workout : Nat) (v : FormValues) : Outcome Unit :=
  let s1 := s.mutate workout (retype v.type)
  match _processWorkoutValues s1 c v none (some workout) with
  | .threw s2 => .threw s2
  | .ret _ s2 =>
    if s2.formError then .ret () s2
    else
      match s2.object workout with
      | none => .threw s2
      | some w =>
        (_updateWorkoutMarker s2 w).andThen fun s3 =>
        (_renderWorkoutItem s3 w).andThen fun s4 =>
        let s5 := _setLocalStorage s4
        let s6 := { s5 with
          submitListeners :=
            addEventListener .createWorkoutLinked
              (removeEventListener s5.editListener s5.submitListeners)
          formMode := .add }
        (_removeHiddenWorkout s6).andThen fun s7 =>
        .ret () (_hideForm s7)

/-- The element a click inside `containerWorkouts` lands on: the settings
icon or the delete icon of the child at a position, another part of that
list item, or none of these. -/
inductive Target where
  | settings (i : Nat)
  | delete (i : Nat)
  | item (i : Nat)
  | other
  deriving DecidableEq

/-- `#workouts.find(work => work.id === id)`. -/
def findWorkout (s : App) (id : String) : Option Nat :=
  s.workouts.find? fun r => (s.object r).map (·.id) = some id

/-- `xs.findIndex(p)`: -1 when no element satisfies `p`. -/
def findIndex {α : Type} (p : α → Bool) : List α → Int
  | [] => -1
  | x :: xs =>
    if p x then 0
    else
      let i := findIndex p xs
      if i < 0 then -1 else i + 1

/-- `xs.splice(start, deleteCount)`: a negative `start` counts from the end. -/
def splice {α : Type} (xs : List α) (start : Int) (deleteCount : Nat) : List α :=
  let len : Int := xs.length
  let actualStart : Nat := if start < 0 then (max (len + start) 0).toNat else (min start len).toNat
  xs.take actualStart ++ xs.drop (actualStart + deleteCount)

/-- `_changeWorkoutValues`: a click on the settings icon of a list item begins
the edit of its record. -/
def _changeWorkoutValues (s : App) (target : Target) : Outcome Unit :=
  match target with
  | .settings i =>
    match s.children[i]? with
    | some (.item id _) =>
      let s1 := if s.formMode = .edit then
          { s with submitListeners := removeEventListener s.editListener s.submitListeners }
        else s
      let s2 := _hideErrMessage { s1 with formMode := .edit }
      let s3 := { s2 with children := s2.children.map Child.show, formHidden := false }
      let workoutObj := findWorkout s3 id
      let s4 := { s3 with
        formHidden := false
        children := insertFormBefore i (modifyAt Child.hide i s3.children) }
      match workoutObj with
      | none => .threw s4
      | some r =>
        .ret () { s4 with
          editWorkoutLinked := some r
          submitListeners :=
            addEventListener (.editWorkoutLinked r)
              (removeEventListener (some .createWorkoutLinked) s4.submitListeners) }
    | _ => .ret () s
  | _ => .ret () s

/-- `marker.remove()` on the first marker with the id. -/
def removeMarker (id : String) : List Marker → List Marker
  | [] => []
  | m :: ms => if m.id = id then { m with onMap := false } :: ms else m :: removeMarker id ms

/-- `_deleteWorkout`: a click on the delete icon of a list item. -/
def _deleteWorkout (s : App) (target : Target) : Outcome Unit :=
  match target with
  | .delete i =>
    match s.children[i]? with
    | some (.item id _) =>
      let workoutIndex := findIndex (fun r => (s.object r).map (·.id) = some id) s.workouts
      let marker := findMarker s id
      let s1 := { s with workouts := splice s.workouts workoutIndex 1 }
      let s2 := { s1 with children := s1.children.eraseIdx i }
      match marker with
      | none => .threw s2
      | some _ => .ret () (_setLocalStorage { s2 with markers := removeMarker id s2.markers })
    | _ => .ret () s
  | _ => .ret () s

def isForm : Child → Bool
  | .form => true
  | .item _ _ => false

/-- `_deleteAllWorkouts`. -/
def _deleteAllWorkouts (s : App) : App :=
  _setLocalStorage
    { s with
      workouts := []
      children := s.children.filter isForm
      markers := s.markers.map fun m => { m with onMap := false } }

/-- `work[field]` as the number the subtraction in the comparator makes of it. -/
def Workout.fieldNumber (w : Workout) (field : String) : JSNum :=
  if field = "distance" then w.distance.toNumber
  else if field = "duration" then w.duration.toNumber
  else if field = "cadence" then w.cadence.toNumber
  else if field = "pace" then w.pace.toNumber
  else if field = "elevationGain" then w.elevationGain.toNumber
  else if field = "speed" then w.speed.toNumber
  else if field = "id" then StringToNumber w.id
  else if field = "type" then StringToNumber w.type.value
  else if field = "description" then StringToNumber w.description
  else if field = "date" then
    match w.date with
    | .date c => .fin c.ms
    | .isoString _ => .nan
  else .nan

/-- The same for the object behind a reference. -/
def App.fieldNumber (s : App) (field : String) (r : Nat) : JSNum :=
  match s.object r with
  | some w => w.fieldNumber field
  | none => .nan

/-- One step of the stable sort: `x`, which stood before all of the list,
goes behind the elements the comparator puts it after. -/
def insertSorted {α : Type} (compareFn : α → α → JSNum) (x : α) : List α → List α
  | [] => [x]
  | y :: ys =>
    if (compareFn x y).gtZero then y :: insertSorted compareFn x ys else x :: y :: ys

/-- `xs.slice().sort(compareFn)`: the sort is stable, and a comparator
result that is not above 0 (also `NaN`) leaves two elements in their order. -/
def sort {α : Type} (compareFn : α → α → JSNum) : List α → List α
  | [] => []
  | x :: xs => insertSorted compareFn x (sort compareFn xs)

/-- `sortedWorkouts` of `_sortWorkouts`. -/
def sortedWorkouts (s : App) (fieldToSortBy : String) : List Nat :=
  sort (fun workA workB =>
    JSNum.sub (s.fieldNumber fieldToSortBy workA) (s.fieldNumber fieldToSortBy workB)) s.workouts

/-- `works.forEach(work => this._renderWorkoutItem(work))`. -/
def renderItems (s : App) (works : List Nat) : Outcome Unit :=
  works.foldl (fun o r => o.andThen fun st =>
    match st.object r with
    | some w => _renderWorkoutItem st w
    | none => .threw st) (.ret () s)

/-- `_sortWorkouts`, for a click on an element with the given tag name and
value. -/
def _sortWorkouts (s : App) (tagName value : String) : Outcome Unit :=
  if tagName ≠ "INPUT" then .ret () s
  else
    let sorted := sortedWorkouts s value
    let s1 := { s with children := s.children.filter isForm }
    (renderItems s1 sorted).andThen fun s2 =>
    .ret () (_hideForm (_hideErrMessage s2))

/-- `restoredWorkout` of `_getLocalStorage`: the members of a parsed record
assigned to a new instance of the class of its type, made without arguments at
clock reading `c`. -/
def restoredWorkout (c : Clock) (work : Workout) : Workout :=
  match work.type with
  | .running => Object.assign (Running.new c .undefined .undefined none .undefined) work
  | .cycling => Object.assign (Cycling.new c .undefined .undefined none .undefined) work

/-- `_getLocalStorage`, at clock reading `c`: the parsed records go into
`#workouts`, and a `restoredWorkout` is rendered for each. -/
def _getLocalStorage (s : App) (c : Clock) : Outcome Unit :=
  match s.localStorage with
  | none => .ret () s
  | some data =>
    let parsed := JSON.parse data
    let s1 := { s with
      heap := s.heap ++ parsed
      workouts := (List.range parsed.length).map (s.heap.length + ·) }
    parsed.foldl (fun o work => o.andThen fun st =>
      _renderWorkoutItem st (restoredWorkout c work)) (.ret () s1)

/-- `_loadMap`: the map is there and every record of the store gets its marker. -/
def _loadMap (s : App) : Outcome Unit :=
  s.workouts.foldl (fun o r => o.andThen fun st =>
    match st.object r with
    | some w => _renderWorkoutMarker st w
    | none => .threw st) (.ret () { s with map := true })

/-- Modelled from the spec: the page as it is loaded, whose markup is not part
of the sources: the list holds the one form, hidden, and no error is shown. -/
def freshPage (localStorage : Option (List Workout)) : App :=
  { heap := [], workouts := [], markers := [], map := false, mapEvent := none,
    formMode := .add, editWorkoutLinked := none, submitListeners := [],
    children := [.form], formHidden := true, formError := false, errMessageHidden := true,
    localStorage := localStorage }

/-- `new App()`: the listeners are added when `_getLocalStorage` did not throw. -/
def App.new (localStorage : Option (List Workout)) (c : Clock) : App :=
  match _getLocalStorage (freshPage localStorage) c with
  | .ret _ s => { s with submitListeners := addEventListener .createWorkoutLinked s.submitListeners }
  | .threw s => s

/-! ### Events -/

inductive Event where
  /-- the position arrives and `_loadMap` runs -/
  | loadMap
  /-- a click on the map -/
  | mapClick (latlng : ℚ × ℚ)
  /-- the form is submitted with the typed values -/
  | submit (c : Clock) (v : FormValues)
  /-- a key is pressed in the form -/
  | keydown
  /-- a click inside the list -/
  | click (target : Target)
  /-- a click on the delete-all button -/
  | deleteAll
  /-- a click in the sorting panel -/
  | sortClick (tagName value : String)

/-- One submit listener runs. -/
def runListener (s : App) (c : Clock) (v : FormValues) : Listener → App
  | .createWorkoutLinked => (_createWorkout s c v).state
  | .editWorkoutLinked r => (_editWorkout s c r v).state

/-- The handlers of one event run, each to its end or to its throw. A submit
listener that was removed meanwhile does not run. Of the three click handlers
of the list, `_moveToMarker` only sets the map view and is left out. -/
def step (s : App) : Event → App
  | .loadMap => (_loadMap s).state
  | .mapClick latlng => if s.map then _showForm s latlng else s
  | .submit c v =>
    s.submitListeners.foldl
      (fun st l => if l ∈ st.submitListeners then runListener st c v l else st) s
  | .keydown => _hideErrMessage s
  | .click target => (_deleteWorkout (_changeWorkoutValues s target).state target).state
  | .deleteAll => _deleteAllWorkouts s
  | .sortClick tagName value => (_sortWorkouts s tagName value).state

/-- The state after a sequence of events. -/
def run (s : App) (events : List Event) : App := events.foldl step s

/-- The finite value of a number; 0 for the others. -/
def JSNum.toRat : JSNum → ℚ
  | .fin q => q
  | _ => 0

/-! ## Sessions -/

/-- A reading of the clock on April 14. -/
def april14 (ms : Nat) : Clock := ⟨ms, 3, 14⟩

/-- The map loads and the user adds three runs, of 5, 2 and 8 km; their ids
are "1", "2" and "3". -/
def threeRuns : List Event :=
  [.loadMap,
   .mapClick (0, 0), .submit (april14 1) ⟨.running, "5", "30", "150", ""⟩,
   .mapClick (0, 0), .submit (april14 2) ⟨.running, "2", "30", "150", ""⟩,
   .mapClick (0, 0), .submit (april14 3) ⟨.running, "8", "30", "150", ""⟩]

/-- The map loads and the user adds one run, of 5 km in 30 min at cadence 150;
its id is "1". -/
def oneRun : List Event :=
  [.loadMap, .mapClick (0, 0), .submit (april14 1) ⟨.running, "5", "30", "150", ""⟩]

/-- After `oneRun`, a click on the settings icon of the run's list item: its
edit begins. -/
def editOfRun : List Event := oneRun ++ [.click (.settings 1)]

/-- After `editOfRun`, the user sorts the list by distance, clicks the map and
submits the form with 10 km in 30 min at cadence 150. -/
def sortDuringEdit : List Event :=
  editOfRun ++
    [.sortClick "INPUT" "distance", .mapClick (0, 0),
     .submit (april14 2) ⟨.running, "10", "30", "150", ""⟩]

/-- The map loads and the user adds two runs, with ids "1" and "2"; the edit
of run "1" begins, the list is sorted by distance, run "1" is deleted, and the
pending edit of run "1" is submitted: the list shows an item for run "1" again,
at position 1, and the store holds run "2" alone. -/
def editOfDeletedRun : List Event :=
  [.loadMap,
   .mapClick (0, 0), .submit (april14 1) ⟨.running, "5", "30", "150", ""⟩,
   .mapClick (0, 0), .submit (april14 2) ⟨.running, "2", "30", "150", ""⟩,
   .click (.settings 2),
   .sortClick "INPUT" "distance",
   .click (.delete 1),
   .mapClick (0, 0), .submit (april14 3) ⟨.running, "10", "30", "150", ""⟩]

/-- The objects and `#workouts` of a state are the given ones. -/
def StoreIs (heap : List Workout) (workouts : List Nat) (st : App) : Prop :=
  st.heap = heap ∧ st.workouts = workouts

/-- The values of a field in the rendered list items, from the item right
after the form to the bottom; each item stands for the record of its id. -/
def renderedField (s : App) (field : String) : List JSNum :=
  (itemIds s.children).map fun id =>
    match findWorkout s id with
    | some r => s.fieldNumber field r
    | none => .nan

/-- A record as the Running or the Cycling constructor builds it. -/
def BuiltByConstructor (w : Workout) : Prop :=
  ∃ (c : Clock) (distance duration : Val) (coords : Option (ℚ × ℚ)) (x : Val),
    w = Running.new c distance duration coords x ∨
    w = Cycling.new c distance duration coords x

/-- A numeric member is a finite number, or the record does not carry it. -/
def Val.finiteOrAbsent : Val → Bool
  | .undefined => true
  | .num (.fin _) => true
  | _ => false

/-- Every numeric member the record carries is a finite number: no `NaN`, no
infinity (as a pace or speed is when its division overflows) and no `null`. -/
def FiniteMembers (w : Workout) : Prop :=
  w.distance.finiteOrAbsent = true ∧ w.duration.finiteOrAbsent = true ∧
  w.cadence.finiteOrAbsent = true ∧ w.pace.finiteOrAbsent = true ∧
  w.elevationGain.finiteOrAbsent = true ∧ w.speed.finiteOrAbsent = true

/-- A loaded record carries the type tag and the values of a saved one, its
date as the ISO string of the saved date. -/
def SameData (saved loaded : Workout) : Prop :=
  loaded.type = saved.type ∧ loaded.id = saved.id ∧ loaded.distance = saved.distance ∧
  loaded.duration = saved.duration ∧ loaded.coords = saved.coords ∧
  loaded.cadence = saved.cadence ∧ loaded.pace = saved.pace ∧
  loaded.elevationGain = saved.elevationGain ∧ loaded.speed = saved.speed ∧
  loaded.description = saved.description ∧ loaded.date = .isoString saved.date.ms

/-! ## Shared lemmas -/

theorem div_fin (a b : ℚ) (hb : b ≠ 0) : JSNum.div (.fin a) (.fin b) = .fin (a / b) := by
  simp [JSNum.div, hb]

theorem upperFirst_running : upperFirst ActivityType.running.value = "Running" := by decide

@[simp] theorem mutate_formError (s : App) (r : Nat) (f : Workout → Workout) :
    (s.mutate r f).formError = s.formError := rfl

@[simp] theorem alloc_formError (s : App) (w : Workout) :
    (s.alloc w).1.formError = s.formError := rfl

theorem process_running_formError (s : App) (c : Clock) (x y z w : String)
    (latlng : Option (ℚ × ℚ)) (obj : Option Nat) :
    (_processWorkoutValues s c ⟨.running, x, y, z, w⟩ latlng obj).state.formError =
      (s.formError ||
        !(isNumber [StringToNumber x, StringToNumber y, StringToNumber z] &&
          isPositiveNumber [StringToNumber x, StringToNumber y, StringToNumber z])) := by
  unfold _processWorkoutValues
  simp only []
  split
  · rename_i h
    simp only [Bool.or_eq_true, Bool.not_eq_true'] at h
    rcases h with h | h <;> simp [Outcome.state, _showErrMessage, h]
  · rename_i h
    simp only [Bool.or_eq_true, Bool.not_eq_true', not_or, Bool.not_eq_false] at h
    cases s.formMode <;> cases obj <;> simp [Outcome.state, h.1, h.2]

theorem process_cycling_formError (s : App) (c : Clock) (x y z w : String)
    (latlng : Option (ℚ × ℚ)) (obj : Option Nat) :
    (_processWorkoutValues s c ⟨.cycling, x, y, z, w⟩ latlng obj).state.formError =
      (s.formError ||
        !(isNumber [StringToNumber x, StringToNumber y, StringToNumber w] &&
          isPositiveNumber [StringToNumber x, StringToNumber y])) := by
  unfold _processWorkoutValues
  simp only []
  split
  · rename_i h
    simp only [Bool.or_eq_true, Bool.not_eq_true'] at h
    rcases h with h | h <;> simp [Outcome.state, _showErrMessage, h]
  · rename_i h
    simp only [Bool.or_eq_true, Bool.not_eq_true', not_or, Bool.not_eq_false] at h
    cases s.formMode <;> cases obj <;> simp [Outcome.state, h.1, h.2]

/-! ## Records and their derived metric -/

/-- C5: for distance, duration and cadence above 0 the Running constructor
gives pace = duration / distance and a description that contains "Running";
for distance and duration above 0 and any elevation the Cycling constructor
gives speed = distance / (duration / 60). -/
theorem C5_constructor_metric (c : Clock) (coords : Option (ℚ × ℚ)) (d t k e : ℚ)
    (hd : 0 < d) (ht : 0 < t) (_hk : 0 < k) :
    (Running.new c (.num (.fin d)) (.num (.fin t)) coords (.num (.fin k))).pace
        = .num (.fin (t / d)) ∧
    "Running".data <:+:
      (Running.new c (.num (.fin d)) (.num (.fin t)) coords (.num (.fin k))).description.data ∧
    (Cycling.new c (.num (.fin d)) (.num (.fin t)) coords (.num (.fin e))).speed
        = .num (.fin (d / (t / 60))) := by
  refine ⟨?_, ?_, ?_⟩
  · simp [Running.new, _createDescription, calcPace, Val.toNumber, div_fin _ _ hd.ne']
  · simp only [Running.new, _createDescription, calcPace, upperFirst_running, String.data_append,
      List.append_assoc]
    exact (List.prefix_append _ _).isInfix
  · have h60 : t / 60 ≠ 0 := by positivity
    simp [Cycling.new, _createDescription, calcSpeed, Val.toNumber,
      div_fin t 60 (by norm_num), div_fin d _ h60]

/-- C5 at distance 5, duration 30, cadence 150 and elevation -5. -/
theorem C5_constructor_metric_witness :
    (Running.new ⟨1, 3, 14⟩ (.num (.fin 5)) (.num (.fin 30)) none (.num (.fin 150))).pace
        = .num (.fin (30 / 5)) ∧
    "Running".data <:+:
      (Running.new ⟨1, 3, 14⟩ (.num (.fin 5)) (.num (.fin 30)) none
        (.num (.fin 150))).description.data ∧
    (Cycling.new ⟨1, 3, 14⟩ (.num (.fin 5)) (.num (.fin 30)) none (.num (.fin (-5)))).speed
        = .num (.fin (5 / (30 / 60))) :=
  C5_constructor_metric ⟨1, 3, 14⟩ none 5 30 150 (-5) (by norm_num) (by norm_num) (by norm_num)

/-! ## Validation -/

/-- C1: from a state that shows no error, `_processWorkoutValues` leaves the
form without the error class exactly when, for "running", distance, duration
and cadence convert to finite numbers above 0, and for "cycling", distance,
duration and elevation convert to finite numbers with distance and duration
above 0. A distance "abc" is refused for both types, cadence "0" is refused
for running, elevation "-5" is accepted for cycling. -/
theorem C1_validation (s : App) (c : Clock) (latlng : Option (ℚ × ℚ)) (obj : Option Nat)
    (distance duration cadence elevation : String) (hs : s.formError = false) :
    ((_processWorkoutValues s c ⟨.running, distance, duration, cadence, elevation⟩
        latlng obj).state.formError = false ↔
      ∃ d t k : ℚ, StringToNumber distance = .fin d ∧ StringToNumber duration = .fin t ∧
        StringToNumber cadence = .fin k ∧ 0 < d ∧ 0 < t ∧ 0 < k) ∧
    ((_processWorkoutValues s c ⟨.cycling, distance, duration, cadence, elevation⟩
        latlng obj).state.formError = false ↔
      ∃ d t e : ℚ, StringToNumber distance = .fin d ∧ StringToNumber duration = .fin t ∧
        StringToNumber elevation = .fin e ∧ 0 < d ∧ 0 < t) ∧
    (∀ type, (_processWorkoutValues s c ⟨type, "abc", duration, cadence, elevation⟩
        latlng obj).state.formError = true) ∧
    (_processWorkoutValues s c ⟨.running, distance, duration, "0", elevation⟩
        latlng obj).state.formError = true ∧
    ((∃ d t : ℚ, StringToNumber distance = .fin d ∧ StringToNumber duration = .fin t ∧
        0 < d ∧ 0 < t) →
      (_processWorkoutValues s c ⟨.cycling, distance, duration, cadence, "-5"⟩
        latlng obj).state.formError = false) := by
  have habc : StringToNumber "abc" = .nan := by decide
  have hzero : StringToNumber "0" = .fin 0 := by decide!
  have hneg : StringToNumber "-5" = .fin (-5) := by decide!
  have run : ∀ x y z : String,
      ((_processWorkoutValues s c ⟨.running, x, y, z, elevation⟩ latlng obj).state.formError
          = false ↔
        ∃ d t k : ℚ, StringToNumber x = .fin d ∧ StringToNumber y = .fin t ∧
          StringToNumber z = .fin k ∧ 0 < d ∧ 0 < t ∧ 0 < k) := by
    intro x y z
    rw [process_running_formError, hs]
    cases StringToNumber x <;> cases StringToNumber y <;> cases StringToNumber z <;>
      simp [isNumber, isPositiveNumber, JSNum.isFinite, JSNum.gtZero]
  have cyc : ∀ x y z : String,
      ((_processWorkoutValues s c ⟨.cycling, x, y, cadence, z⟩ latlng obj).state.formError
          = false ↔
        ∃ d t e : ℚ, StringToNumber x = .fin d ∧ StringToNumber y = .fin t ∧
          StringToNumber z = .fin e ∧ 0 < d ∧ 0 < t) := by
    intro x y z
    rw [process_cycling_formError, hs]
    cases StringToNumber x <;> cases StringToNumber y <;> cases StringToNumber z <;>
      simp [isNumber, isPositiveNumber, JSNum.isFinite, JSNum.gtZero]
  refine ⟨run _ _ _, cyc _ _ _, ?_, ?_, ?_⟩
  · intro type
    cases type
    · have h := (run "abc" duration cadence).not
      simp only [habc] at h
      simpa using h
    · have h := (cyc "abc" duration elevation).not
      simp only [habc] at h
      simpa using h
  · have h := (run distance duration "0").not
    simp only [hzero] at h
    simpa using h
  · rintro ⟨d, t, hd, ht, h0d, h0t⟩
    exact (cyc distance duration "-5").2 ⟨d, t, -5, hd, ht, hneg, h0d, h0t⟩

/-- C1 at the freshly loaded page, for a run of 5 km in 30 min at cadence 150. -/
theorem C1_validation_witness :
    (freshPage none).formError = false ∧
    (_processWorkoutValues (freshPage none) ⟨1, 3, 14⟩ ⟨.running, "5", "30", "150", ""⟩
        none none).state.formError = false :=
  ⟨rfl, (C1_validation (freshPage none) ⟨1, 3, 14⟩ none none "5" "30" "150" "" rfl).1.2
    ⟨5, 30, 150, by decide!, by decide!, by decide!, by norm_num, by norm_num, by norm_num⟩⟩

/-! ## Sorting -/

theorem insertSorted_perm {α : Type} (compareFn : α → α → JSNum) (x : α) (l : List α) :
    (insertSorted compareFn x l).Perm (x :: l) := by
  induction l with
  | nil => exact List.Perm.refl _
  | cons y ys ih =>
    unfold insertSorted
    split
    · exact (List.Perm.cons y ih).trans (List.Perm.swap x y ys)
    · exact List.Perm.refl _

theorem sort_perm {α : Type} (compareFn : α → α → JSNum) (l : List α) :
    (sort compareFn l).Perm l := by
  induction l with
  | nil => exact List.Perm.refl _
  | cons x xs ih =>
    unfold sort
    exact (insertSorted_perm compareFn x _).trans (List.Perm.cons x ih)

/-- Inserting into an ascending list keeps it ascending, when the comparator
is above 0 exactly for a larger key. -/
theorem insertSorted_pairwise {α : Type} (compareFn : α → α → JSNum) (key : α → ℚ) (x : α)
    (l : List α) (hcmp : ∀ y ∈ l, (compareFn x y).gtZero = decide (key y < key x))
    (hl : l.Pairwise fun a b => key a ≤ key b) :
    (insertSorted compareFn x l).Pairwise fun a b => key a ≤ key b := by
  induction l with
  | nil => simp [insertSorted]
  | cons y ys ih =>
    have hy := hcmp y (List.mem_cons_self _ _)
    rw [List.pairwise_cons] at hl
    unfold insertSorted
    split
    · rename_i h
      rw [hy, decide_eq_true_eq] at h
      rw [List.pairwise_cons]
      refine ⟨?_, ih (fun z hz => hcmp z (List.mem_cons_of_mem _ hz)) hl.2⟩
      intro z hz
      rcases List.mem_cons.1 ((insertSorted_perm compareFn x ys).mem_iff.1 hz) with rfl | hz
      · exact h.le
      · exact hl.1 z hz
    · rename_i h
      rw [hy, decide_eq_true_eq, not_lt] at h
      rw [List.pairwise_cons]
      refine ⟨?_, List.pairwise_cons.2 hl⟩
      intro z hz
      rcases List.mem_cons.1 hz with rfl | hz
      · exact h
      · exact h.trans (hl.1 z hz)

theorem sort_pairwise {α : Type} (compareFn : α → α → JSNum) (key : α → ℚ) (l : List α)
    (hcmp : ∀ x ∈ l, ∀ y ∈ l, (compareFn x y).gtZero = decide (key y < key x)) :
    (sort compareFn l).Pairwise fun a b => key a ≤ key b := by
  induction l with
  | nil => simp [sort]
  | cons x xs ih =>
    unfold sort
    refine insertSorted_pairwise compareFn key x _ ?_ ?_
    · intro y hy
      exact hcmp x (List.mem_cons_self _ _) y
        (List.mem_cons_of_mem _ ((sort_perm compareFn xs).mem_iff.1 hy))
    · exact ih fun a ha b hb =>
        hcmp a (List.mem_cons_of_mem _ ha) b (List.mem_cons_of_mem _ hb)

theorem fin_toRat {x : JSNum} (h : x.isFinite = true) : x = .fin x.toRat := by
  cases x <;> simp_all [JSNum.isFinite, JSNum.toRat]

/-- With finite values of the field throughout the store, `sortedWorkouts` is
ascending in the field. -/
theorem sortedWorkouts_pairwise (s : App) (f : String)
    (hnum : ∀ r ∈ s.workouts, (s.fieldNumber f r).isFinite = true) :
    (sortedWorkouts s f).Pairwise fun a b =>
      (s.fieldNumber f a).toRat ≤ (s.fieldNumber f b).toRat := by
  refine sort_pairwise _ (fun r => (s.fieldNumber f r).toRat) s.workouts ?_
  intro x hx y hy
  rw [fin_toRat (hnum x hx), fin_toRat (hnum y hy)]
  simp [JSNum.sub, JSNum.gtZero, JSNum.toRat]

/-! ## What rendering leaves alone -/

/-- A property of the state that every step of a `forEach` keeps holds after
the loop, whether it ran to its end or threw. -/
theorem forEach_keeps {β : Type} (P : App → Prop) (F : App → β → Outcome Unit)
    (hF : ∀ st b, P st → P (F st b).state) (l : List β) (o : Outcome Unit) (ho : P o.state) :
    P (l.foldl (fun o b => o.andThen fun st => F st b) o).state := by
  induction l generalizing o with
  | nil => exact ho
  | cons b bs ih =>
    refine ih _ ?_
    cases o with
    | ret a st => exact hF st b ho
    | threw st => exact ho

theorem renderWorkoutItem_store (s : App) (w : Workout) :
    (_renderWorkoutItem s w).state.heap = s.heap ∧
    (_renderWorkoutItem s w).state.workouts = s.workouts := by
  unfold _renderWorkoutItem
  split <;> exact ⟨rfl, rfl⟩

theorem renderItems_store (s : App) (works : List Nat) :
    (renderItems s works).state.heap = s.heap ∧
    (renderItems s works).state.workouts = s.workouts := by
  refine forEach_keeps (fun st => st.heap = s.heap ∧ st.workouts = s.workouts)
    (fun st r => match st.object r with
      | some w => _renderWorkoutItem st w
      | none => .threw st) ?_ works (.ret () s) ⟨rfl, rfl⟩
  intro st r h
  show (match st.object r with
      | some w => _renderWorkoutItem st w
      | none => Outcome.threw st).state.heap = s.heap ∧
    (match st.object r with
      | some w => _renderWorkoutItem st w
      | none => Outcome.threw st).state.workouts = s.workouts
  cases st.object r with
  | none => exact h
  | some w =>
    exact ⟨(renderWorkoutItem_store st w).1.trans h.1, (renderWorkoutItem_store st w).2.trans h.2⟩

theorem sortWorkouts_store (s : App) (tagName value : String) :
    (_sortWorkouts s tagName value).state.heap = s.heap ∧
    (_sortWorkouts s tagName value).state.workouts = s.workouts := by
  unfold _sortWorkouts
  split
  · exact ⟨rfl, rfl⟩
  · have h := renderItems_store { s with children := s.children.filter isForm }
      (sortedWorkouts s value)
    simp only []
    revert h
    cases renderItems { s with children := s.children.filter isForm } (sortedWorkouts s value)
      <;> exact fun h => h

/-- C7: with a finite number in the chosen field of every record, the ordering
`_sortWorkouts` computes is a permutation of the store's records, ascending in
that field, and the store holds the same records in the same order after the
sort. For ids 1, 2, 3 with distances 5, 2, 8 the ordering by distance is
2, 1, 3 and the store stays 1, 2, 3. -/
theorem C7_sort_ascending_permutation (s : App) (f : String)
    (hnum : ∀ r ∈ s.workouts, (s.fieldNumber f r).isFinite = true) :
    (sortedWorkouts s f).Perm s.workouts ∧
    ((sortedWorkouts s f).Pairwise fun a b =>
      ∃ x y : ℚ, s.fieldNumber f a = .fin x ∧ s.fieldNumber f b = .fin y ∧ x ≤ y) ∧
    (∀ tagName, (_sortWorkouts s tagName f).state.workouts = s.workouts ∧
      (_sortWorkouts s tagName f).state.heap = s.heap) ∧
    ((run (App.new none (april14 0)) threeRuns).records.map (fun w => (w.id, w.distance))
        = [("1", .num (.fin 5)), ("2", .num (.fin 2)), ("3", .num (.fin 8))] ∧
      (sortedWorkouts (run (App.new none (april14 0)) threeRuns) "distance").filterMap
        (fun r => ((run (App.new none (april14 0)) threeRuns).object r).map (·.id))
        = ["2", "1", "3"] ∧
      (step (run (App.new none (april14 0)) threeRuns)
        (.sortClick "INPUT" "distance")).records.map (·.id) = ["1", "2", "3"]) := by
  refine ⟨sort_perm _ _, ?_, fun tagName => ?_, by decide!⟩
  · refine (sortedWorkouts_pairwise s f hnum).imp_of_mem ?_
    intro a b ha hb hab
    have ha' := hnum a ((sort_perm _ _).mem_iff.1 ha)
    have hb' := hnum b ((sort_perm _ _).mem_iff.1 hb)
    exact ⟨_, _, fin_toRat ha', fin_toRat hb', hab⟩
  · exact ⟨(sortWorkouts_store s tagName f).2, (sortWorkouts_store s tagName f).1⟩

/-- C7 on the store of three runs, sorted by distance. -/
theorem C7_sort_ascending_permutation_witness :
    (sortedWorkouts (run (App.new none (april14 0)) threeRuns) "distance").Perm
      (run (App.new none (april14 0)) threeRuns).workouts :=
  (C7_sort_ascending_permutation (run (App.new none (april14 0)) threeRuns) "distance"
    (by decide!)).1

/-! ## Editing a record -/

theorem getElem?_modifyAt {α : Type} (f : α → α) (r : Nat) (l : List α) :
    (modifyAt f r l)[r]? = (l[r]?).map f := by
  induction l generalizing r with
  | nil => cases r <;> rfl
  | cons x xs ih =>
    cases r with
    | zero => simp [modifyAt]
    | succ n => simpa [modifyAt] using ih n

theorem object_mutate (s : App) (r : Nat) (f : Workout → Workout) :
    (s.mutate r f).object r = (s.object r).map f :=
  getElem?_modifyAt f r s.heap

theorem andThen_keeps {β : Type} (P : App → Prop) (o : Outcome Unit) (f : App → Outcome β)
    (ho : P o.state) (hf : ∀ st, P st → P (f st).state) : P (o.andThen f).state := by
  cases o with
  | ret a st => exact hf st ho
  | threw st => exact ho

theorem updateWorkoutMarker_keeps {h : List Workout} {ws : List Nat} (st : App) (w : Workout)
    (hst : StoreIs h ws st) : StoreIs h ws (_updateWorkoutMarker st w).state := by
  unfold _updateWorkoutMarker
  split <;> exact hst

theorem renderWorkoutItem_keeps {h : List Workout} {ws : List Nat} (st : App) (w : Workout)
    (hst : StoreIs h ws st) : StoreIs h ws (_renderWorkoutItem st w).state := by
  unfold _renderWorkoutItem
  split <;> exact hst

theorem removeHiddenWorkout_keeps {h : List Workout} {ws : List Nat} (st : App)
    (hst : StoreIs h ws st) : StoreIs h ws (_removeHiddenWorkout st).state := by
  unfold _removeHiddenWorkout
  split <;> exact hst

/-- Whatever the submission, `_editWorkout` leaves `#workouts` as it is, and
the objects as `_processWorkoutValues` left them. -/
theorem editWorkout_store (s : App) (c : Clock) (r : Nat) (v : FormValues) :
    StoreIs (_processWorkoutValues (s.mutate r (retype v.type)) c v none (some r)).state.heap
      (_processWorkoutValues (s.mutate r (retype v.type)) c v none (some r)).state.workouts
      (_editWorkout s c r v).state := by
  unfold _editWorkout
  simp only []
  generalize _processWorkoutValues (s.mutate r (retype v.type)) c v none (some r) = o
  cases o with
  | threw s2 => exact ⟨rfl, rfl⟩
  | ret a s2 =>
    simp only []
    split
    · exact ⟨rfl, rfl⟩
    · cases s2.object r with
      | none => exact ⟨rfl, rfl⟩
      | some w =>
        refine andThen_keeps _ _ _ (updateWorkoutMarker_keeps s2 w ⟨rfl, rfl⟩) fun s3 h3 => ?_
        refine andThen_keeps _ _ _ (renderWorkoutItem_keeps s3 w h3) fun s4 h4 => ?_
        refine andThen_keeps _ _ _ (removeHiddenWorkout_keeps _ h4) fun s7 h7 => h7

/-! ## Submissions in edit mode, deletion and the rendered list -/

/-- C2: what the code does on an edit submission that fails validation. The
edit of a run has begun; the form is submitted with type "cycling" and
distance "abc". The error is shown, and yet the record in the store has
changed: its type is now "cycling", its description reads "Cycling", and it
has a speed. -/
theorem C2_invalid_edit_changes_record :
    (run (App.new none (april14 0)) editOfRun).records.map
        (fun w => (w.type, w.description, w.speed, w.proto))
      = [(.running, "Running on April 14", .undefined, .running)] ∧
    (step (run (App.new none (april14 0)) editOfRun)
        (.submit (april14 2) ⟨.cycling, "abc", "30", "", "5"⟩)).formError = true ∧
    (step (run (App.new none (april14 0)) editOfRun)
        (.submit (april14 2) ⟨.cycling, "abc", "30", "", "5"⟩)).records.map
        (fun w => (w.type, w.description, w.speed, w.proto))
      = [(.cycling, "Cycling on April 14", .num (.fin 10), .cycling)] := by
  decide!

/-- C3: what the code does on a valid edit submission that changes the
distance. The run of 5 km in 30 min is edited to 10 km in 30 min: the
submission succeeds, and the record then has distance 10, duration 30 and the
pace 6 of the old values, not 30 / 10 = 3. -/
theorem C3_pace_of_old_values_after_edit :
    (step (run (App.new none (april14 0)) editOfRun)
        (.submit (april14 2) ⟨.running, "10", "30", "150", ""⟩)).formError = false ∧
    (step (run (App.new none (april14 0)) editOfRun)
        (.submit (april14 2) ⟨.running, "10", "30", "150", ""⟩)).records.map
        (fun w => (w.distance, w.duration, w.pace))
      = [(.num (.fin 10), .num (.fin 30), .num (.fin 6))] ∧
    JSNum.div (.fin 30) (.fin 10) = .fin 3 := by
  decide!

/-- C6: what the delete does for an id that matches no record. In the state
`editOfDeletedRun` reaches, the store holds run "2" alone and the list item at
position 1 carries the id "1", which matches no record: `findIndex` gives -1,
and the click on the delete icon of that item removes run "2" from the store. -/
theorem C6_delete_of_absent_id_removes_last :
    (run (App.new none (april14 0)) editOfDeletedRun).children
      = [.form, .item "1" false, .item "2" false] ∧
    (run (App.new none (april14 0)) editOfDeletedRun).records.map (·.id) = ["2"] ∧
    findIndex (fun r => ((run (App.new none (april14 0)) editOfDeletedRun).object r).map (·.id)
        = some "1") (run (App.new none (april14 0)) editOfDeletedRun).workouts = -1 ∧
    (_deleteWorkout (run (App.new none (april14 0)) editOfDeletedRun)
        (.delete 1)).state.records = [] := by
  decide!

/-- C9: what the list holds when the user sorts during an edit. After
`sortDuringEdit` (add a run, begin its edit, sort, submit the edit) the store
holds the one record "1" and the list holds two items with the id "1",
neither of them hidden. -/
theorem C9_two_items_for_one_record :
    (run (App.new none (april14 0)) sortDuringEdit).records.map (·.id) = ["1"] ∧
    (run (App.new none (april14 0)) sortDuringEdit).children
      = [.form, .item "1" false, .item "1" false] := by
  decide!

theorem replace_running (rest : String) :
    replace ("Running on " ++ rest) "Running" "Cycling" = "Cycling on " ++ rest := by
  apply String.ext
  simp [replace, replaceChars, String.data_append, List.isPrefixOf]

theorem process_edit_cycling (s : App) (c : Clock) (v : FormValues) (r : Nat) (d t e : ℚ)
    (hmode : s.formMode = .edit) (hv : v.type = .cycling)
    (hd : StringToNumber v.distance = .fin d) (ht : StringToNumber v.duration = .fin t)
    (he : StringToNumber v.elevation = .fin e) (hd0 : 0 < d) (ht0 : 0 < t) :
    _processWorkoutValues s c v none (some r) =
      .ret none (s.mutate r fun o =>
        { o with type := .cycling, distance := .num (.fin d), duration := .num (.fin t),
                 elevationGain := .num (.fin e) }) := by
  unfold _processWorkoutValues
  simp [hv, hd, ht, he, hmode, isNumber, isPositiveNumber, JSNum.isFinite, JSNum.gtZero, hd0, ht0]

/-- C8, as the code has it: a Running record under edit, submitted with type
"cycling" and valid values, afterwards has type "cycling", the entered
distance, duration and elevation gain, a speed, and a description in which
"Running" has become "Cycling" before the same month and day; it keeps the
cadence and the pace it had, and the store holds the same references. -/
theorem C8_edit_running_to_cycling (s : App) (c : Clock) (r : Nat) (w : Workout)
    (v : FormValues) (rest : String) (d t e : ℚ)
    (hmode : s.formMode = .edit) (hw : s.object r = some w)
    (_htype : w.type = .running) (hdesc : w.description = "Running on " ++ rest)
    (hv : v.type = .cycling)
    (hd : StringToNumber v.distance = .fin d) (ht : StringToNumber v.duration = .fin t)
    (he : StringToNumber v.elevation = .fin e) (hd0 : 0 < d) (ht0 : 0 < t) :
    ∃ w', (_editWorkout s c r v).state.object r = some w' ∧
      (_editWorkout s c r v).state.workouts = s.workouts ∧
      w'.type = .cycling ∧ w'.distance = .num (.fin d) ∧ w'.duration = .num (.fin t) ∧
      w'.elevationGain = .num (.fin e) ∧ (∃ x, w'.speed = .num x) ∧
      w'.cadence = w.cadence ∧ w'.pace = w.pace ∧
      w'.description = "Cycling on " ++ rest := by
  have hst := editWorkout_store s c r v
  rw [process_edit_cycling (s.mutate r (retype v.type)) c v r d t e hmode hv hd ht he hd0 ht0]
    at hst
  obtain ⟨hheap, hws⟩ := hst
  refine ⟨{ retype .cycling w with
      type := .cycling, distance := .num (.fin d), duration := .num (.fin t),
      elevationGain := .num (.fin e) }, ?_, hws, ?_⟩
  · show (_editWorkout s c r v).state.heap[r]? = _
    rw [hheap]
    simp only [Outcome.state]
    refine (object_mutate _ r _).trans ?_
    rw [object_mutate, hw, hv]
    rfl
  · simp [retype, calcSpeed, hdesc, replace_running]

/-- C8 as the specification has it fails: after the edit of the run of
`editOfRun` into type "cycling" with valid values, the record has type
"cycling" and still carries its cadence 150 and its pace 6. -/
theorem C8_cadence_and_pace_remain :
    (step (run (App.new none (april14 0)) editOfRun)
        (.submit (april14 2) ⟨.cycling, "5", "30", "", "-5"⟩)).formError = false ∧
    (step (run (App.new none (april14 0)) editOfRun)
        (.submit (april14 2) ⟨.cycling, "5", "30", "", "-5"⟩)).records.map
        (fun w => (w.type, w.cadence, w.pace))
      = [(.cycling, .num (.fin 150), .num (.fin 6))] := by
  decide!

/-- C8 on the run of `editOfRun`, edited into cycling with elevation -5. -/
theorem C8_edit_running_to_cycling_witness :
    ∃ w', (_editWorkout (run (App.new none (april14 0)) editOfRun) (april14 2) 0
        ⟨.cycling, "5", "30", "", "-5"⟩).state.object 0 = some w' ∧
      w'.type = .cycling ∧ w'.elevationGain = .num (.fin (-5)) ∧
      w'.cadence = .num (.fin 150) ∧ w'.description = "Cycling on April 14" :=
  (C8_edit_running_to_cycling (run (App.new none (april14 0)) editOfRun) (april14 2) 0
    (Running.new (april14 1) (.num (.fin 5)) (.num (.fin 30)) (some (0, 0)) (.num (.fin 150)))
    ⟨.cycling, "5", "30", "", "-5"⟩ "April 14" 5 30 (-5)
    (by decide!) (by decide!) (by decide!) (by decide!) rfl (by decide!) (by decide!)
    (by decide!) (by norm_num) (by norm_num)).imp fun _ h =>
      ⟨h.1, h.2.2.1, h.2.2.2.2.2.1, h.2.2.2.2.2.2.2.1, h.2.2.2.2.2.2.2.2.2⟩

/-! ## The list after a sort -/

/-- The list item `_renderWorkoutItem` makes for the object behind a reference. -/
theorem renderItems_children (works : List Nat) :
    ∀ (st : App) (items : List Child), st.children = .form :: items →
      (∀ r ∈ works, ∃ w, st.object r = some w ∧ canRender w = true) →
      ∃ st', renderItems st works = .ret () st' ∧
        st'.children = .form ::
          ((works.reverse.filterMap fun r => (st.object r).map fun w => Child.item w.id false)
            ++ items) := by
  induction works with
  | nil => intro st items h _; exact ⟨st, rfl, by simpa using h⟩
  | cons r rs ih =>
    intro st items h hall
    obtain ⟨w, hw, hcan⟩ := hall r (List.mem_cons_self _ _)
    have hstep : renderItems st (r :: rs) =
        renderItems { st with children := .form :: Child.item w.id false :: items } rs := by
      simp only [renderItems, List.foldl_cons, Outcome.andThen, hw, _renderWorkoutItem, hcan,
        if_true, h, insertAfterForm]
    obtain ⟨st', hst', hch⟩ := ih { st with children := .form :: Child.item w.id false :: items }
      (Child.item w.id false :: items) rfl
      (fun r' hr' => hall r' (List.mem_cons_of_mem _ hr'))
    refine ⟨st', hstep.trans hst', ?_⟩
    rw [hch]
    have hobj : ∀ r', ({ st with children := .form :: Child.item w.id false :: items } : App).object r'
        = st.object r' := fun _ => rfl
    simp [hobj, List.filterMap_append, hw]

/-- C10, as the code has it: with exactly one form among the children, every
record of the store renderable and a finite number in the field of every
record, after `_sortWorkouts` the list is the form followed by the items of the
records in the reverse of the ascending ordering: read from the item right
after the form to the bottom, the items are in descending order of the field. -/
theorem C10_sorted_list_descends (s : App) (f : String)
    (hform : s.children.filter isForm = [.form])
    (hrender : ∀ r ∈ s.workouts, ∃ w, s.object r = some w ∧ canRender w = true)
    (hnum : ∀ r ∈ s.workouts, (s.fieldNumber f r).isFinite = true) :
    (_sortWorkouts s "INPUT" f).state.children =
      .form :: (sortedWorkouts s f).reverse.filterMap
        (fun r => (s.object r).map fun w => Child.item w.id false) ∧
    ((sortedWorkouts s f).reverse.Pairwise fun a b =>
      ∃ x y : ℚ, s.fieldNumber f a = .fin x ∧ s.fieldNumber f b = .fin y ∧ y ≤ x) := by
  constructor
  · obtain ⟨st', hst', hch⟩ := renderItems_children (sortedWorkouts s f)
      { s with children := s.children.filter isForm } [] hform
      (fun r hr => hrender r ((sort_perm _ _).mem_iff.1 hr))
    have hobj : ∀ r', ({ s with children := s.children.filter isForm } : App).object r'
        = s.object r' := fun _ => rfl
    simp only [hobj, List.append_nil] at hch
    simp only [_sortWorkouts, ne_eq, not_true_eq_false, if_false, hst', Outcome.andThen,
      Outcome.state, _hideForm, _hideErrMessage, hch, prependForm]
    simp
    intro a x _ w _ h h2
    rw [h2] at h
    cases h
  · rw [List.pairwise_reverse]
    refine (sortedWorkouts_pairwise s f hnum).imp_of_mem ?_
    intro a b ha hb hab
    have ha' := hnum a ((sort_perm _ _).mem_iff.1 ha)
    have hb' := hnum b ((sort_perm _ _).mem_iff.1 hb)
    exact ⟨_, _, fin_toRat hb', fin_toRat ha', hab⟩

/-- C10 as the specification has it fails: after the click that sorts the
three runs of `threeRuns` by distance, the items from the top have the ids
3, 1, 2, with the distances 8, 5, 2, which is not an ascending order. -/
theorem C10_sorted_list_not_ascending :
    itemIds (step (run (App.new none (april14 0)) threeRuns)
      (.sortClick "INPUT" "distance")).children = ["3", "1", "2"] ∧
    renderedField (step (run (App.new none (april14 0)) threeRuns)
      (.sortClick "INPUT" "distance")) "distance" = [.fin 8, .fin 5, .fin 2] ∧
    ¬ (renderedField (step (run (App.new none (april14 0)) threeRuns)
      (.sortClick "INPUT" "distance")) "distance").Pairwise
        (fun a b => ∃ x y : ℚ, a = .fin x ∧ b = .fin y ∧ x ≤ y) := by
  have h : renderedField (step (run (App.new none (april14 0)) threeRuns)
      (.sortClick "INPUT" "distance")) "distance" = [.fin 8, .fin 5, .fin 2] := by decide!
  refine ⟨by decide!, h, ?_⟩
  rw [h]
  intro hp
  obtain ⟨x, y, hx, hy, hxy⟩ := (List.pairwise_cons.1 hp).1 (.fin 5) (by simp)
  cases hx
  cases hy
  norm_num at hxy

/-- C10 on the store of three runs, sorted by distance. -/
theorem C10_sorted_list_descends_witness :
    (_sortWorkouts (run (App.new none (april14 0)) threeRuns) "INPUT" "distance").state.children =
      .form :: (sortedWorkouts (run (App.new none (april14 0)) threeRuns) "distance").reverse.filterMap
        (fun r => ((run (App.new none (april14 0)) threeRuns).object r).map
          fun w => Child.item w.id false) :=
  (C10_sorted_list_descends (run (App.new none (april14 0)) threeRuns) "distance"
    (by decide!) (by decide!) (by decide!)).1

/-! ## Saving and loading -/

theorem filterMap_range_getElem? {α : Type} (l : List α) :
    (List.range l.length).filterMap (fun i => l[i]?) = l := by
  induction l with
  | nil => rfl
  | cons a l ih =>
    rw [List.length_cons, List.range_succ_eq_map, List.filterMap_cons]
    simp only [List.getElem?_cons_zero, List.filterMap_map]
    congr 1
    simpa [Function.comp_def] using ih

/-- The store of a freshly loaded app holds the objects `JSON.parse` returns
for the stored text, in their order. -/
theorem new_records (localStorage : Option (List Workout)) (c : Clock) :
    (App.new localStorage c).records = (localStorage.map JSON.parse).getD [] := by
  cases localStorage with
  | none => rfl
  | some data =>
    have key : StoreIs (JSON.parse data) (List.range (JSON.parse data).length)
        (_getLocalStorage (freshPage (some data)) c).state := by
      simp only [_getLocalStorage, freshPage]
      exact forEach_keeps (StoreIs (JSON.parse data) (List.range (JSON.parse data).length))
        (fun st (work : Workout) => _renderWorkoutItem st (restoredWorkout c work))
        (fun st work h => renderWorkoutItem_keeps st _ h) _ _ ⟨rfl, by simp [Outcome.state]⟩
    have hrec : ∀ st : App, StoreIs (JSON.parse data) (List.range (JSON.parse data).length) st →
        st.records = JSON.parse data := by
      intro st h
      unfold App.records App.object
      rw [h.1, h.2]
      exact filterMap_range_getElem? _
    unfold App.new
    cases ho : _getLocalStorage (freshPage (some data)) c with
    | ret a st =>
      rw [ho] at key
      exact hrec _ ⟨key.1, key.2⟩
    | threw st =>
      rw [ho] at key
      exact hrec _ key

theorem jsonVal_finiteOrAbsent {x : Val} (h : x.finiteOrAbsent = true) : jsonVal x = x := by
  cases x with
  | undefined => rfl
  | null => simp [Val.finiteOrAbsent] at h
  | num n => cases n <;> first | rfl | simp [Val.finiteOrAbsent] at h

/-- A record whose numeric members are finite reads back from JSON with the
same data. -/
theorem jsonObject_sameData (w : Workout) (h : FiniteMembers w) :
    SameData w (jsonObject (jsonObject w)) := by
  obtain ⟨h1, h2, h3, h4, h5, h6⟩ := h
  simp [SameData, jsonObject, DateVal.ms, jsonVal_finiteOrAbsent h1, jsonVal_finiteOrAbsent h2,
    jsonVal_finiteOrAbsent h3, jsonVal_finiteOrAbsent h4, jsonVal_finiteOrAbsent h5,
    jsonVal_finiteOrAbsent h6]

/-- A running record from a constructor has the pace `calcPace` gave it. -/
theorem built_running_pace (w : Workout) (h : BuiltByConstructor w) (hty : w.type = .running) :
    w.pace = .num (JSNum.div w.duration.toNumber w.distance.toNumber) := by
  obtain ⟨c, distance, duration, coords, x, h | h⟩ := h
  · subst h
    simp [Running.new, _createDescription, calcPace]
  · subst h
    simp [Cycling.new, _createDescription, calcSpeed] at hty

/-- C4, as the code has it: when every record of the store was built by the
Running or the Cycling constructor and every numeric member it carries is a
finite number, saving with `_setLocalStorage` and loading into a fresh app
gives a store of the same length and order in which each record carries the
type tag, id, distance, duration, coordinates, cadence, pace, elevation gain,
speed and description of the saved one, and carries as its date the ISO string
of the saved date; a loaded record of type "running" has
pace = duration / distance, in the division of the code. -/
theorem C4_round_trip_of_data (s : App) (c : Clock)
    (hbuilt : ∀ w ∈ s.records, BuiltByConstructor w) (hfin : ∀ w ∈ s.records, FiniteMembers w) :
    List.Forall₂ SameData s.records (App.new (_setLocalStorage s).localStorage c).records ∧
    ∀ w ∈ (App.new (_setLocalStorage s).localStorage c).records, w.type = .running →
      w.pace = .num (JSNum.div w.duration.toNumber w.distance.toNumber) := by
  have hload : (App.new (_setLocalStorage s).localStorage c).records
      = s.records.map fun w => jsonObject (jsonObject w) := by
    rw [new_records]
    simp [_setLocalStorage, JSON.parse, JSON.stringify]
  rw [hload]
  constructor
  · rw [List.forall₂_map_right_iff, List.forall₂_same]
    exact fun w hw => jsonObject_sameData w (hfin w hw)
  · intro w' hw'
    obtain ⟨w, hw, rfl⟩ := List.mem_map.1 hw'
    intro hty
    have hsame := jsonObject_sameData w (hfin w hw)
    unfold SameData at hsame
    rw [hsame.2.2.1, hsame.2.2.2.1, hsame.2.2.2.2.2.2.1]
    exact built_running_pace w (hbuilt w hw) (hsame.1 ▸ hty)

/-- C4 as the specification has it fails: the run of `oneRun`, saved and
loaded into a fresh app, is in the store as a plain object whose date is a
string, while the saved record is a Running instance with a Date: the loaded
collection is not equal to the saved one. -/
theorem C4_loaded_differs_from_saved :
    (run (App.new none (april14 0)) oneRun).records.map (fun w => (w.proto, w.date))
      = [(.running, .date (april14 1))] ∧
    (App.new (_setLocalStorage (run (App.new none (april14 0)) oneRun)).localStorage
        (april14 9)).records.map (fun w => (w.proto, w.date))
      = [(.object, .isoString 1)] ∧
    (App.new (_setLocalStorage (run (App.new none (april14 0)) oneRun)).localStorage
        (april14 9)).records ≠ (run (App.new none (april14 0)) oneRun).records := by
  decide!

/-- C4 on the store of `oneRun`. -/
theorem C4_round_trip_of_data_witness :
    List.Forall₂ SameData (run (App.new none (april14 0)) oneRun).records
      (App.new (_setLocalStorage (run (App.new none (april14 0)) oneRun)).localStorage
        (april14 9)).records :=
  have h : (run (App.new none (april14 0)) oneRun).records
      = [Running.new (april14 1) (.num (.fin 5)) (.num (.fin 30)) (some (0, 0))
          (.num (.fin 150))] := by decide!
  (C4_round_trip_of_data (run (App.new none (april14 0)) oneRun) (april14 9)
    (by
      rw [h]
      intro w hw
      rw [List.mem_singleton] at hw
      exact ⟨april14 1, .num (.fin 5), .num (.fin 30), some (0, 0), .num (.fin 150), Or.inl hw⟩)
    (by
      rw [h]
      intro w hw
      rw [List.mem_singleton] at hw
      subst hw
      refine ⟨?_, ?_, ?_, ?_, ?_, ?_⟩ <;> decide!)).1

end Mapty
